import Mathlib

/-!
Shallow embedding of the GIC-400 interrupt controller driver (`src/irq.rs`)
of the `nether` kernel.

The driver's observable behaviour is modelled explicitly:

* the handler registry (`BTreeMap<u32, Vec<fn()>>` behind a `RwLock`) becomes a
  map `Nat → Option (List H)` where `H` is an abstract handler type;
* every volatile write to a memory-mapped register becomes an `HWWrite` event;
* the `msr daifclr / wfi / msr daifset` idle sequence becomes `CoreEvent`s;
* a Rust panic (`assert!`, `unwrap`, `expect`) becomes the `panicked` flag on a
  step's output: the step then leaves the state unchanged and emits nothing,
  exactly as the aborting code does;
* `Irq::dispatch`'s infinite loop is modelled one iteration at a time, an
  iteration being determined by the value the `GICC_IAR` read returns.

Constants, branch structure and arithmetic (`>> 5`, `& 0x1F`, `& 0x3FF`,
`0xFF8000 | irq`) are taken verbatim from the source.  All values are `u32`s
in the source; no arithmetic there can overflow (shifts are bounded by 31 and
the masks keep values below `2^32`), so `Nat` models them exactly.
-/

namespace Nether

/-- Number of SPIs on the BCM2711 (`SPI_COUNT` in `irq.rs`). -/
def SPI_COUNT : Nat := 192

/-- Total number of IRQs on the BCM2711 (`IRQ_COUNT = SPI_COUNT + 32`). -/
def IRQ_COUNT : Nat := SPI_COUNT + 32

/-- Number of 32-bit words in the `GICD_ISENABLER` register array
(`IRQ_COUNT >> 5` in the declaration of `GICD_ISENABLER`). -/
def ISENABLER_LEN : Nat := IRQ_COUNT >>> 5

/-- One volatile write to a memory-mapped GIC register, as performed by the
driver.  `idx` is the index into the corresponding register array, `val` the
written value. -/
inductive HWWrite where
  | icenabler (idx val : Nat)
  | pmr (val : Nat)
  | ipriorityr (idx val : Nat)
  | icfgr (idx val : Nat)
  | itargetsr (idx val : Nat)
  | isenabler (idx val : Nat)
  | sgir (val : Nat)
  | eoir (val : Nat)
deriving DecidableEq

/-- Core-level interrupt masking events of the dispatcher's idle branch
(`msr daifclr, 0x3`, `wfi`, `msr daifset, 0x3`). -/
inductive CoreEvent where
  | unmask
  | wfi
  | mask
deriving DecidableEq

/-- The handler registry: `BTreeMap<u32, Vec<fn()>>`, with handlers drawn from
an abstract type `H`.  `none` models an absent key. -/
structure Irq (H : Type) where
  handlers : Nat → Option (List H)

variable {H : Type}

/-- Map update, modelling both `BTreeMap::insert` and mutation through
`BTreeMap::get_mut`. -/
def update (m : Nat → Option (List H)) (k : Nat) (v : List H) : Nat → Option (List H) :=
  fun j => if j = k then some v else m j

/-- Observable outcome of one driver operation: the registry afterwards, the
hardware writes and core events it emitted, the handlers it invoked (in
order), the registry keys it looked up, and whether it panicked.  A panicking
operation aborts before mutating anything, so its `state` is the input state
and its `writes` are empty, mirroring the control flow of the source. -/
structure StepOut (H : Type) where
  state : Irq H
  writes : List HWWrite
  events : List CoreEvent
  invoked : List H
  lookups : List Nat
  panicked : Bool

/-- The registry constructed by `Irq::new`: empty. -/
def initIrq : Irq H := { handlers := fun _ => none }

/-- The sequence of register writes performed by `Irq::new`, in program
order: clear every enable word, set the priority mask, set every priority
byte, make every IRQ level-triggered, route every SPI (index ≥ 32, via
`skip(32)`) to all cores. -/
def newWrites : List HWWrite :=
  ((List.range (IRQ_COUNT >>> 5)).map fun i => HWWrite.icenabler i 0xFFFFFFFF)
    ++ [HWWrite.pmr 0xFF]
    ++ ((List.range IRQ_COUNT).map fun i => HWWrite.ipriorityr i 0x7F)
    ++ ((List.range (IRQ_COUNT >>> 4)).map fun i => HWWrite.icfgr i 0x55555555)
    ++ (((List.range IRQ_COUNT).drop 32).map fun i => HWWrite.itargetsr i 0xFF)

/-- The full effect of `Irq::new`: the empty registry plus the initialization
writes. -/
def Irq.new (H : Type) : Irq H × List HWWrite := (initIrq, newWrites)

/-- Embedding of `Irq::register`.  The out-of-range assertion and the
`get_mut(idx).unwrap()` on the enable array are modelled as panicking
branches. -/
def Irq.register (s : Irq H) (irq : Nat) (handler : H) : StepOut H :=
  if irq < IRQ_COUNT then
    match s.handlers irq with
    | some vec =>
      { state := { handlers := update s.handlers irq (vec ++ [handler]) },
        writes := [], events := [], invoked := [], lookups := [irq], panicked := false }
    | none =>
      let val := 1 <<< (irq &&& 0x1F)
      let idx := irq >>> 5
      if idx < ISENABLER_LEN then
        { state := { handlers := update s.handlers irq [handler] },
          writes := [HWWrite.isenabler idx val], events := [], invoked := [],
          lookups := [irq], panicked := false }
      else
        { state := s, writes := [], events := [], invoked := [], lookups := [irq],
          panicked := true }
  else
    { state := s, writes := [], events := [], invoked := [], lookups := [], panicked := true }

/-- Embedding of `Irq::trigger`. -/
def Irq.trigger (s : Irq H) (irq : Nat) : StepOut H :=
  if irq < 16 then
    { state := s, writes := [HWWrite.sgir (0xFF8000 ||| irq)], events := [], invoked := [],
      lookups := [], panicked := false }
  else
    { state := s, writes := [], events := [], invoked := [], lookups := [], panicked := true }

/-- Embedding of one iteration of the `Irq::dispatch` loop, parameterized by
the raw value `val` the `GICC_IAR` read returned.  The registry is never
mutated by dispatch (the handler list is cloned). -/
def Irq.dispatchIter (s : Irq H) (val : Nat) : StepOut H :=
  let irq := val &&& 0x3FF
  if IRQ_COUNT ≤ irq then
    { state := s, writes := [], events := [CoreEvent.unmask, CoreEvent.wfi, CoreEvent.mask],
      invoked := [], lookups := [], panicked := false }
  else
    match s.handlers irq with
    | none =>
      { state := s, writes := [], events := [], invoked := [], lookups := [irq],
        panicked := true }
    | some hs =>
      { state := s, writes := [HWWrite.eoir val], events := [], invoked := hs,
        lookups := [irq], panicked := false }

/-- A driver operation, for reasoning about sequences of calls: a
`register` call, a `trigger` call, or one dispatch-loop iteration whose
acknowledge read returned `val`. -/
inductive Op (H : Type) where
  | register (irq : Nat) (handler : H)
  | trigger (irq : Nat)
  | ack (val : Nat)

/-- Semantics of one operation. -/
def stepOp (s : Irq H) : Op H → StepOut H
  | Op.register irq handler => Irq.register s irq handler
  | Op.trigger irq => Irq.trigger s irq
  | Op.ack val => Irq.dispatchIter s val

/-- Run a sequence of operations, concatenating the hardware writes; `none`
if some operation panics. -/
def runOps (s : Irq H) : List (Op H) → Option (Irq H × List HWWrite)
  | [] => some (s, [])
  | op :: rest =>
    let r := stepOp s op
    if r.panicked then none
    else
      match runOps r.state rest with
      | none => none
      | some (s', tr) => some (s', r.writes ++ tr)

/-- The hardware-write trace of a run. -/
def runTrace (s : Irq H) (ops : List (Op H)) : Option (List HWWrite) :=
  (runOps s ops).map Prod.snd

/-- Whether an operation is a `register` call for interrupt `id`. -/
def regOp (id : Nat) : Op H → Bool
  | Op.register irq _ => irq == id
  | _ => false

/-- Whether a hardware write sets the set-enable bit of interrupt `id`:
it targets set-enable word `id / 32` with bit `id % 32` set in the written
value. -/
def setsBit (id : Nat) : HWWrite → Bool
  | HWWrite.isenabler idx val => idx == id / 32 && val.testBit (id % 32)
  | _ => false

/-- Whether a hardware write targets a clear-enable register. -/
def isClear : HWWrite → Bool
  | HWWrite.icenabler _ _ => true
  | _ => false

/-- The handler list registered for `id` (empty when the key is absent). -/
def listOf (s : Irq H) (id : Nat) : List H :=
  (s.handlers id).getD []

/-- The registry after registering `h1` and then `h2` for the same `id`. -/
def reg2 (s : Irq H) (id : Nat) (h1 h2 : H) : Irq H :=
  (Irq.register (Irq.register s id h1).state id h2).state

/-! Arithmetic bridges between the source's bit operations and the spec's
`/ 32`, `% 32` vocabulary. -/

lemma and31_eq_mod (n : Nat) : n &&& 31 = n % 32 :=
  Nat.and_pow_two_sub_one_eq_mod n 5

lemma shiftRight5_eq_div (n : Nat) : n >>> 5 = n / 32 := by
  rw [Nat.shiftRight_eq_div_pow]

lemma one_shl_eq_pow (k : Nat) : 1 <<< k = 2 ^ k :=
  Nat.one_shiftLeft k

lemma enable_write_eq (id : Nat) :
    HWWrite.isenabler (id >>> 5) (1 <<< (id &&& 31)) =
      HWWrite.isenabler (id / 32) (2 ^ (id % 32)) := by
  rw [shiftRight5_eq_div, and31_eq_mod, one_shl_eq_pow]

lemma idx_lt_isenabler_len {id : Nat} (h : id < IRQ_COUNT) : id >>> 5 < ISENABLER_LEN := by
  rw [shiftRight5_eq_div]
  have hlen : ISENABLER_LEN = 7 := by decide
  have hcnt : IRQ_COUNT = 224 := by decide
  rw [hlen]
  rw [hcnt] at h
  omega

lemma setsBit_self (id : Nat) :
    setsBit id (HWWrite.isenabler (id >>> 5) (1 <<< (id &&& 31))) = true := by
  simp [setsBit, shiftRight5_eq_div, and31_eq_mod, one_shl_eq_pow, Nat.testBit_two_pow]

lemma setsBit_other {id i : Nat} (hne : i ≠ id) :
    setsBit id (HWWrite.isenabler (i >>> 5) (1 <<< (i &&& 31))) = false := by
  simp only [setsBit, shiftRight5_eq_div, and31_eq_mod, one_shl_eq_pow, Nat.testBit_two_pow]
  by_cases h1 : i / 32 = id / 32
  · by_cases h2 : i % 32 = id % 32
    · exact absurd (by omega) hne
    · simp [h2]
  · simp [h1]

/-! Lemmas characterizing the branches of the three operations. -/

lemma update_same (m : Nat → Option (List H)) (k : Nat) (v : List H) :
    update m k v k = some v := by
  simp [update]

lemma update_other (m : Nat → Option (List H)) (k j : Nat) (v : List H) (h : j ≠ k) :
    update m k v j = m j := by
  simp [update, h]

lemma register_oor {s : Irq H} {id : Nat} (hge : IRQ_COUNT ≤ id) (h : H) :
    Irq.register s id h =
      { state := s, writes := [], events := [], invoked := [], lookups := [],
        panicked := true } := by
  simp [Irq.register, Nat.not_lt.mpr hge]

lemma register_fresh {s : Irq H} {id : Nat} (hid : id < IRQ_COUNT)
    (hnone : s.handlers id = none) (h : H) :
    Irq.register s id h =
      { state := { handlers := update s.handlers id [h] },
        writes := [HWWrite.isenabler (id >>> 5) (1 <<< (id &&& 31))], events := [],
        invoked := [], lookups := [id], panicked := false } := by
  simp [Irq.register, hid, hnone, idx_lt_isenabler_len hid]

lemma register_existing {s : Irq H} {id : Nat} {v : List H} (hid : id < IRQ_COUNT)
    (hsome : s.handlers id = some v) (h : H) :
    Irq.register s id h =
      { state := { handlers := update s.handlers id (v ++ [h]) },
        writes := [], events := [], invoked := [], lookups := [id], panicked := false } := by
  simp [Irq.register, hid, hsome]

lemma trigger_ok {s : Irq H} {id : Nat} (hlt : id < 16) :
    Irq.trigger s id =
      { state := s, writes := [HWWrite.sgir (0xFF8000 ||| id)], events := [], invoked := [],
        lookups := [], panicked := false } := by
  simp [Irq.trigger, hlt]

lemma trigger_oor {s : Irq H} {id : Nat} (hge : 16 ≤ id) :
    Irq.trigger s id =
      { state := s, writes := [], events := [], invoked := [], lookups := [],
        panicked := true } := by
  simp [Irq.trigger, Nat.not_lt.mpr hge]

lemma dispatch_spurious {s : Irq H} {val : Nat} (hge : IRQ_COUNT ≤ val &&& 0x3FF) :
    Irq.dispatchIter s val =
      { state := s, writes := [],
        events := [CoreEvent.unmask, CoreEvent.wfi, CoreEvent.mask], invoked := [],
        lookups := [], panicked := false } := by
  simp [Irq.dispatchIter, hge]

lemma dispatch_none {s : Irq H} {val : Nat} (hlt : val &&& 0x3FF < IRQ_COUNT)
    (hnone : s.handlers (val &&& 0x3FF) = none) :
    Irq.dispatchIter s val =
      { state := s, writes := [], events := [], invoked := [],
        lookups := [val &&& 0x3FF], panicked := true } := by
  simp [Irq.dispatchIter, Nat.not_le.mpr hlt, hnone]

lemma dispatch_some {s : Irq H} {val : Nat} {hs : List H} (hlt : val &&& 0x3FF < IRQ_COUNT)
    (hsome : s.handlers (val &&& 0x3FF) = some hs) :
    Irq.dispatchIter s val =
      { state := s, writes := [HWWrite.eoir val], events := [], invoked := hs,
        lookups := [val &&& 0x3FF], panicked := false } := by
  simp [Irq.dispatchIter, Nat.not_le.mpr hlt, hsome]

/-! Characterizations of each operation, used by the run invariant. -/

lemma step_handlers_isSome (s : Irq H) (op : Op H) (id : Nat)
    (hnp : (stepOp s op).panicked = false) :
    ((stepOp s op).state.handlers id).isSome = ((s.handlers id).isSome || regOp id op) := by
  cases op with
  | register i h =>
    show ((Irq.register s i h).state.handlers id).isSome = _
    rcases Nat.lt_or_ge i IRQ_COUNT with hlt | hge
    · cases hv : s.handlers i with
      | some v =>
        rw [register_existing hlt hv h]
        by_cases hid : id = i
        · subst hid
          simp [update_same, hv, regOp]
        · have hne : i ≠ id := fun e => hid e.symm
          simp [update_other _ _ _ _ hid, regOp, beq_eq_false_iff_ne.mpr hne]
      | none =>
        rw [register_fresh hlt hv h]
        by_cases hid : id = i
        · subst hid
          simp [update_same, hv, regOp]
        · have hne : i ≠ id := fun e => hid e.symm
          simp [update_other _ _ _ _ hid, regOp, beq_eq_false_iff_ne.mpr hne]
    · rw [show stepOp s (Op.register i h) = Irq.register s i h from rfl,
          register_oor hge h] at hnp
      simp at hnp
  | trigger i =>
    show ((Irq.trigger s i).state.handlers id).isSome = _
    rcases Nat.lt_or_ge i 16 with hlt | hge
    · rw [trigger_ok hlt]
      simp [regOp]
    · rw [trigger_oor hge]
      simp [regOp]
  | ack v =>
    show ((Irq.dispatchIter s v).state.handlers id).isSome = _
    rcases Nat.lt_or_ge (v &&& 0x3FF) IRQ_COUNT with hlt | hge
    · cases hv : s.handlers (v &&& 0x3FF) with
      | some hs =>
        rw [dispatch_some hlt hv]
        simp [regOp]
      | none =>
        rw [show stepOp s (Op.ack v) = Irq.dispatchIter s v from rfl,
            dispatch_none hlt hv] at hnp
        simp at hnp
    · rw [dispatch_spurious hge]
      simp [regOp]

lemma step_writes_filter (s : Irq H) (op : Op H) (id : Nat)
    (hnp : (stepOp s op).panicked = false) :
    (stepOp s op).writes.filter (setsBit id) =
      (if regOp id op && !(s.handlers id).isSome then
        [HWWrite.isenabler (id / 32) (2 ^ (id % 32))]
      else []) := by
  cases op with
  | register i h =>
    show (Irq.register s i h).writes.filter (setsBit id) = _
    rcases Nat.lt_or_ge i IRQ_COUNT with hlt | hge
    · cases hv : s.handlers i with
      | some v =>
        rw [register_existing hlt hv h]
        by_cases hid : id = i
        · subst hid
          simp [hv, regOp]
        · have hne : i ≠ id := fun e => hid e.symm
          simp [regOp, beq_eq_false_iff_ne.mpr hne]
      | none =>
        rw [register_fresh hlt hv h]
        by_cases hid : id = i
        · subst hid
          simp only [List.filter_cons, setsBit_self id, List.filter_nil, if_true]
          simp [hv, regOp, enable_write_eq]
        · have hne : i ≠ id := fun e => hid e.symm
          simp [List.filter, setsBit_other hne, regOp, beq_eq_false_iff_ne.mpr hne]
    · rw [show stepOp s (Op.register i h) = Irq.register s i h from rfl,
          register_oor hge h] at hnp
      simp at hnp
  | trigger i =>
    show (Irq.trigger s i).writes.filter (setsBit id) = _
    rcases Nat.lt_or_ge i 16 with hlt | hge
    · rw [trigger_ok hlt]
      simp [regOp, List.filter, setsBit]
    · rw [trigger_oor hge]
      simp [regOp]
  | ack v =>
    show (Irq.dispatchIter s v).writes.filter (setsBit id) = _
    rcases Nat.lt_or_ge (v &&& 0x3FF) IRQ_COUNT with hlt | hge
    · cases hv : s.handlers (v &&& 0x3FF) with
      | some hs =>
        rw [dispatch_some hlt hv]
        simp [regOp, List.filter, setsBit]
      | none =>
        rw [show stepOp s (Op.ack v) = Irq.dispatchIter s v from rfl,
            dispatch_none hlt hv] at hnp
        simp at hnp
    · rw [dispatch_spurious hge]
      simp [regOp]

lemma step_writes_noClear (s : Irq H) (op : Op H) :
    ∀ w ∈ (stepOp s op).writes, isClear w = false := by
  cases op with
  | register i h =>
    show ∀ w ∈ (Irq.register s i h).writes, isClear w = false
    rcases Nat.lt_or_ge i IRQ_COUNT with hlt | hge
    · cases hv : s.handlers i with
      | some v =>
        rw [register_existing hlt hv h]
        simp
      | none =>
        rw [register_fresh hlt hv h]
        simp [isClear]
    · rw [register_oor hge h]
      simp
  | trigger i =>
    show ∀ w ∈ (Irq.trigger s i).writes, isClear w = false
    rcases Nat.lt_or_ge i 16 with hlt | hge
    · rw [trigger_ok hlt]
      simp [isClear]
    · rw [trigger_oor hge]
      simp
  | ack v =>
    show ∀ w ∈ (Irq.dispatchIter s v).writes, isClear w = false
    rcases Nat.lt_or_ge (v &&& 0x3FF) IRQ_COUNT with hlt | hge
    · cases hv : s.handlers (v &&& 0x3FF) with
      | some hs =>
        rw [dispatch_some hlt hv]
        simp [isClear]
      | none =>
        rw [dispatch_none hlt hv]
        simp
    · rw [dispatch_spurious hge]
      simp

/-! Run-level lemmas. -/

lemma runOps_cons (s : Irq H) (op : Op H) (rest : List (Op H)) :
    runOps s (op :: rest) =
      (if (stepOp s op).panicked then none
       else
         match runOps (stepOp s op).state rest with
         | none => none
         | some (s', tr) => some (s', (stepOp s op).writes ++ tr)) := rfl

lemma runOps_inv (id : Nat) :
    ∀ (ops : List (Op H)) (s s' : Irq H) (tr : List HWWrite),
      runOps s ops = some (s', tr) →
      ((s'.handlers id).isSome = ((s.handlers id).isSome || ops.any (regOp id)))
      ∧ tr.filter (setsBit id) =
          (if (s.handlers id).isSome then []
           else if ops.any (regOp id) then
             [HWWrite.isenabler (id / 32) (2 ^ (id % 32))]
           else [])
      ∧ (∀ w ∈ tr, isClear w = false) := by
  intro ops
  induction ops with
  | nil =>
    intro s s' tr h
    simp only [runOps, Option.some.injEq, Prod.mk.injEq] at h
    obtain ⟨h1, h2⟩ := h
    subst h1
    subst h2
    refine ⟨by simp, ?_, by simp⟩
    cases hs : (s.handlers id).isSome <;> simp
  | cons op rest ih =>
    intro s s' tr h
    rw [runOps_cons] at h
    by_cases hp : (stepOp s op).panicked = true
    · simp [hp] at h
    · have hnp : (stepOp s op).panicked = false := by
        cases hq : (stepOp s op).panicked
        · rfl
        · exact absurd hq hp
      rw [if_neg hp] at h
      cases hr : runOps (stepOp s op).state rest with
      | none =>
        rw [hr] at h
        exact absurd h (by simp)
      | some p =>
        obtain ⟨s1, tr1⟩ := p
        rw [hr] at h
        simp only [Option.some.injEq, Prod.mk.injEq] at h
        obtain ⟨h1, h2⟩ := h
        subst h1
        subst h2
        obtain ⟨ih1, ih2, ih3⟩ := ih (stepOp s op).state s1 tr1 hr
        have hstep1 := step_handlers_isSome s op id hnp
        have hstep2 := step_writes_filter s op id hnp
        have hstep3 := step_writes_noClear s op
        rw [hstep1] at ih1 ih2
        refine ⟨?_, ?_, ?_⟩
        · rw [ih1, List.any_cons, Bool.or_assoc]
        · rw [List.filter_append, hstep2, ih2, List.any_cons]
          cases ha : (s.handlers id).isSome <;>
            cases hb : regOp id op <;>
              cases hc : rest.any (regOp id) <;> simp
        · intro w hw
          rcases List.mem_append.mp hw with hw1 | hw2
          · exact hstep3 w hw1
          · exact ih3 w hw2

lemma runOps_append :
    ∀ (l1 l2 : List (Op H)) (s s' : Irq H) (tr : List HWWrite),
      runOps s (l1 ++ l2) = some (s', tr) →
      ∃ s1 tr1 tr2, runOps s l1 = some (s1, tr1) ∧ runOps s1 l2 = some (s', tr2)
        ∧ tr = tr1 ++ tr2 := by
  intro l1
  induction l1 with
  | nil =>
    intro l2 s s' tr h
    exact ⟨s, [], tr, rfl, h, rfl⟩
  | cons op rest ih =>
    intro l2 s s' tr h
    rw [List.cons_append, runOps_cons] at h
    by_cases hp : (stepOp s op).panicked = true
    · simp [hp] at h
    · rw [if_neg hp] at h
      cases hr : runOps (stepOp s op).state (rest ++ l2) with
      | none =>
        rw [hr] at h
        exact absurd h (by simp)
      | some p =>
        obtain ⟨s1, tr1⟩ := p
        rw [hr] at h
        simp only [Option.some.injEq, Prod.mk.injEq] at h
        obtain ⟨h1, h2⟩ := h
        subst h1
        subst h2
        obtain ⟨s2, tra, trb, ha, hb, hab⟩ := ih l2 (stepOp s op).state s1 tr1 hr
        refine ⟨s2, (stepOp s op).writes ++ tra, trb, ?_, hb, by rw [hab, List.append_assoc]⟩
        rw [runOps_cons, if_neg hp, ha]

/-! Claim theorems. -/

/-- C1: over any panic-free run of driver operations from the freshly
constructed driver, for every interrupt id below `IRQ_COUNT`: the hardware
set-enable bit of `id` is written exactly once when the run contains a
`register` call for `id` and never otherwise, and the single write targets
word `id / 32` with only bit `id % 32` set; no enable-bit write for `id`
occurs during a prefix of the run that contains no `register` call for `id`
(so the write is performed by the first such call); a `register` call for an
id that already has handlers appends the handler, performs no hardware write
and does not panic; and no operation ever writes a clear-enable register. -/
theorem enable_bit_written_once (ops : List (Op H)) (tr : List HWWrite) (id : Nat)
    (hid : id < IRQ_COUNT) (hrun : runTrace initIrq ops = some tr) :
    tr.filter (setsBit id) =
      (if ops.any (regOp id) then [HWWrite.isenabler (id / 32) (2 ^ (id % 32))] else [])
    ∧ (∀ pre post, ops = pre ++ post → pre.any (regOp id) = false →
        ∀ tr1, runTrace (initIrq (H := H)) pre = some tr1 → tr1.filter (setsBit id) = [])
    ∧ (∀ (s : Irq H) (v : List H) (h : H), s.handlers id = some v →
        (Irq.register s id h).writes = []
        ∧ (Irq.register s id h).state.handlers id = some (v ++ [h])
        ∧ (Irq.register s id h).panicked = false)
    ∧ (∀ w ∈ tr, isClear w = false) := by
  cases hro : runOps (initIrq (H := H)) ops with
  | none =>
    rw [runTrace, hro] at hrun
    exact absurd hrun (by simp)
  | some p =>
    obtain ⟨sf, trf⟩ := p
    rw [runTrace, hro] at hrun
    simp at hrun
    subst hrun
    obtain ⟨_, hfil, hncl⟩ := runOps_inv id ops initIrq sf trf hro
    have hini : ((initIrq (H := H)).handlers id).isSome = false := rfl
    rw [hini] at hfil
    refine ⟨by rw [hfil]; simp, ?_, ?_, hncl⟩
    · intro pre post hsplit hpre tr1 hrun1
      cases hro1 : runOps (initIrq (H := H)) pre with
      | none =>
        rw [runTrace, hro1] at hrun1
        exact absurd hrun1 (by simp)
      | some q =>
        obtain ⟨s1, tr1'⟩ := q
        rw [runTrace, hro1] at hrun1
        simp at hrun1
        subst hrun1
        obtain ⟨_, hfil1, _⟩ := runOps_inv id pre initIrq s1 tr1' hro1
        rw [hini, hpre] at hfil1
        simpa using hfil1
    · intro s v h hv
      have e := register_existing hid hv h
      refine ⟨by rw [e], ?_, by rw [e]⟩
      rw [e]
      exact update_same _ _ _

/-- C1 witness: a concrete run registering id 5 twice emits exactly one
enable-bit write for id 5, to word 0 with only bit 5 set. -/
theorem enable_bit_written_once_witness :
    (5 < IRQ_COUNT)
    ∧ runTrace (initIrq (H := Unit)) [Op.register 5 (), Op.register 5 ()]
        = some [HWWrite.isenabler 0 32]
    ∧ [HWWrite.isenabler 0 32].filter (setsBit 5) =
        (if [Op.register 5 (), Op.register 5 ()].any (regOp 5) then
          [HWWrite.isenabler (5 / 32) (2 ^ (5 % 32))]
        else [])
    ∧ (∀ w ∈ [HWWrite.isenabler 0 32], isClear w = false) :=
  ⟨by decide, by decide,
    (enable_bit_written_once [Op.register 5 (), Op.register 5 ()]
      [HWWrite.isenabler 0 32] 5 (by decide) (by decide)).1,
    (enable_bit_written_once [Op.register 5 (), Op.register 5 ()]
      [HWWrite.isenabler 0 32] 5 (by decide) (by decide)).2.2.2⟩

/-- C2: registering `h1` for `id` appends `h1` to the end of the handler list
for `id`, leaving prior entries and all other ids untouched; registering `h2`
afterwards yields the prior list followed by `h1` then `h2`; and a dispatch
iteration acknowledging `id` invokes exactly that list in order, so `h1` is
invoked at a strictly smaller position than `h2`. -/
theorem register_append_dispatch_order (s : Irq H) (id : Nat) (h1 h2 : H) (val : Nat)
    (hid : id < IRQ_COUNT) (hval : val &&& 0x3FF = id) :
    (Irq.register s id h1).state.handlers id = some (listOf s id ++ [h1])
    ∧ (∀ j, j ≠ id → (Irq.register s id h1).state.handlers j = s.handlers j)
    ∧ (reg2 s id h1 h2).handlers id = some (listOf s id ++ [h1, h2])
    ∧ (Irq.dispatchIter (reg2 s id h1 h2) val).invoked = listOf s id ++ [h1, h2]
    ∧ (Irq.dispatchIter (reg2 s id h1 h2) val).invoked[(listOf s id).length]? = some h1
    ∧ (Irq.dispatchIter (reg2 s id h1 h2) val).invoked[(listOf s id).length + 1]?
        = some h2 := by
  have hs1 : (Irq.register s id h1).state.handlers id = some (listOf s id ++ [h1]) := by
    cases hv : s.handlers id with
    | none =>
      rw [register_fresh hid hv h1]
      simp [update_same, listOf, hv]
    | some v =>
      rw [register_existing hid hv h1]
      simp [update_same, listOf, hv]
  have hoth : ∀ j, j ≠ id → (Irq.register s id h1).state.handlers j = s.handlers j := by
    intro j hj
    cases hv : s.handlers id with
    | none =>
      rw [register_fresh hid hv h1]
      exact update_other _ _ _ _ hj
    | some v =>
      rw [register_existing hid hv h1]
      exact update_other _ _ _ _ hj
  have hs2 : (reg2 s id h1 h2).handlers id = some (listOf s id ++ [h1, h2]) := by
    show ((Irq.register (Irq.register s id h1).state id h2).state.handlers id) = _
    rw [register_existing hid hs1 h2]
    simp [update_same]
  have hlt : val &&& 0x3FF < IRQ_COUNT := by
    rw [hval]
    exact hid
  have hd := dispatch_some hlt (by rw [hval]; exact hs2)
  refine ⟨hs1, hoth, hs2, by rw [hd], ?_, ?_⟩
  · rw [hd]
    show (listOf s id ++ [h1, h2])[(listOf s id).length]? = some h1
    rw [List.getElem?_append_right (Nat.le_refl _)]
    simp
  · rw [hd]
    show (listOf s id ++ [h1, h2])[(listOf s id).length + 1]? = some h2
    rw [List.getElem?_append_right (Nat.le_succ_of_le (Nat.le_refl _))]
    simp

/-- C2 witness: registering handlers 0 then 1 for id 7 from the empty
registry and acknowledging 7 invokes them in registration order. -/
theorem register_append_dispatch_order_witness :
    (7 < IRQ_COUNT) ∧ (7 &&& 0x3FF = 7)
    ∧ (Irq.dispatchIter (reg2 (initIrq (H := Nat)) 7 0 1) 7).invoked
        = listOf (initIrq (H := Nat)) 7 ++ [0, 1]
    ∧ (Irq.dispatchIter (reg2 (initIrq (H := Nat)) 7 0 1) 7).invoked[(0 : Nat)]? = some 0
    ∧ (Irq.dispatchIter (reg2 (initIrq (H := Nat)) 7 0 1) 7).invoked[(1 : Nat)]? = some 1 :=
  ⟨by decide, by decide,
    (register_append_dispatch_order (initIrq (H := Nat)) 7 0 1 7 (by decide)
      (by decide)).2.2.2.1,
    (register_append_dispatch_order (initIrq (H := Nat)) 7 0 1 7 (by decide)
      (by decide)).2.2.2.2.1,
    (register_append_dispatch_order (initIrq (H := Nat)) 7 0 1 7 (by decide)
      (by decide)).2.2.2.2.2⟩

/-- C3: a dispatch iteration whose acknowledge read strips to a registered id
below `IRQ_COUNT` invokes exactly the registered handlers and writes the
original raw acknowledged value to the end-of-interrupt register, leaving the
registry untouched; concretely (with `IRQ_COUNT = 224`), after registering a
counting handler for id 142 and acknowledging 142, one iteration yields
counter 1, an end-of-interrupt write of 142, and handler list `[handler]`. -/
theorem dispatch_invokes_and_retires_raw (s : Irq H) (val : Nat) (hs : List H)
    (hlt : val &&& 0x3FF < IRQ_COUNT) (hreg : s.handlers (val &&& 0x3FF) = some hs) :
    Irq.dispatchIter s val =
      { state := s, writes := [HWWrite.eoir val], events := [], invoked := hs,
        lookups := [val &&& 0x3FF], panicked := false }
    ∧ IRQ_COUNT = 224
    ∧ ((Irq.dispatchIter (Irq.register (initIrq (H := Nat → Nat)) 142 Nat.succ).state
          142).invoked.foldl (fun c f => f c) 0 = 1)
    ∧ (Irq.dispatchIter (Irq.register (initIrq (H := Nat → Nat)) 142 Nat.succ).state
          142).writes = [HWWrite.eoir 142]
    ∧ (Irq.dispatchIter (Irq.register (initIrq (H := Nat → Nat)) 142 Nat.succ).state
          142).state.handlers 142 = some [Nat.succ] :=
  ⟨dispatch_some hlt hreg, by decide, rfl, rfl, rfl⟩

/-- C3 witness: the concrete scenario of the claim, instantiating the general
statement at the state with the single counting handler for id 142. -/
theorem dispatch_invokes_and_retires_raw_witness :
    (142 &&& 0x3FF < IRQ_COUNT)
    ∧ Irq.dispatchIter (Irq.register (initIrq (H := Nat → Nat)) 142 Nat.succ).state 142 =
        { state := (Irq.register (initIrq (H := Nat → Nat)) 142 Nat.succ).state,
          writes := [HWWrite.eoir 142], events := [], invoked := [Nat.succ],
          lookups := [142 &&& 0x3FF], panicked := false } :=
  ⟨by decide,
    (dispatch_invokes_and_retires_raw
      (Irq.register (initIrq (H := Nat → Nat)) 142 Nat.succ).state 142 [Nat.succ]
      (by decide) rfl).1⟩

/-- C4: a dispatch iteration whose acknowledge value strips to an id at or
above `IRQ_COUNT` performs exactly one unmask / wait-for-interrupt / re-mask
cycle and restarts, with no registry lookup and no end-of-interrupt write. -/
theorem dispatch_spurious_idle_wait (s : Irq H) (val : Nat)
    (hge : IRQ_COUNT ≤ val &&& 0x3FF) :
    Irq.dispatchIter s val =
      { state := s, writes := [],
        events := [CoreEvent.unmask, CoreEvent.wfi, CoreEvent.mask], invoked := [],
        lookups := [], panicked := false }
    ∧ (Irq.dispatchIter s val).events.count CoreEvent.wfi = 1
    ∧ (Irq.dispatchIter s val).lookups = []
    ∧ (Irq.dispatchIter s val).writes = [] := by
  have h := dispatch_spurious (s := s) hge
  exact ⟨h, by rw [h]; rfl, by rw [h], by rw [h]⟩

/-- C4 witness: acknowledge value 0x3FF (the spurious sentinel) from the
empty registry. -/
theorem dispatch_spurious_idle_wait_witness :
    (IRQ_COUNT ≤ 0x3FF &&& 0x3FF)
    ∧ Irq.dispatchIter (initIrq (H := Unit)) 0x3FF =
        { state := initIrq, writes := [],
          events := [CoreEvent.unmask, CoreEvent.wfi, CoreEvent.mask], invoked := [],
          lookups := [], panicked := false } :=
  ⟨by decide, (dispatch_spurious_idle_wait (initIrq (H := Unit)) 0x3FF (by decide)).1⟩

/-- C5: a dispatch iteration whose acknowledged stripped id is below
`IRQ_COUNT` but has no registry entry panics after the lookup, without
writing the end-of-interrupt register and without mutating the registry. -/
theorem dispatch_unhandled_fatal (s : Irq H) (val : Nat)
    (hlt : val &&& 0x3FF < IRQ_COUNT) (hnone : s.handlers (val &&& 0x3FF) = none) :
    Irq.dispatchIter s val =
      { state := s, writes := [], events := [], invoked := [],
        lookups := [val &&& 0x3FF], panicked := true }
    ∧ (Irq.dispatchIter s val).panicked = true
    ∧ (Irq.dispatchIter s val).writes = [] := by
  have h := dispatch_none hlt hnone
  exact ⟨h, by rw [h], by rw [h]⟩

/-- C5 witness: acknowledging id 0 with the empty registry. -/
theorem dispatch_unhandled_fatal_witness :
    (0 &&& 0x3FF < IRQ_COUNT)
    ∧ (Irq.dispatchIter (initIrq (H := Unit)) 0).panicked = true
    ∧ (Irq.dispatchIter (initIrq (H := Unit)) 0).writes = [] :=
  ⟨by decide,
    (dispatch_unhandled_fatal (initIrq (H := Unit)) 0 (by decide) rfl).2.1,
    (dispatch_unhandled_fatal (initIrq (H := Unit)) 0 (by decide) rfl).2.2⟩

/-- C6: `register` with an id at or above `IRQ_COUNT` panics at the assertion
before mutating anything: the registry is unchanged and no hardware register
is written. -/
theorem register_out_of_range_fatal (s : Irq H) (id : Nat) (h : H)
    (hge : IRQ_COUNT ≤ id) :
    Irq.register s id h =
      { state := s, writes := [], events := [], invoked := [], lookups := [],
        panicked := true }
    ∧ (Irq.register s id h).state = s
    ∧ (Irq.register s id h).writes = []
    ∧ (Irq.register s id h).panicked = true := by
  have e := register_oor (s := s) hge h
  exact ⟨e, by rw [e], by rw [e], by rw [e]⟩

/-- C6 witness: registering id 224 (the first out-of-range id). -/
theorem register_out_of_range_fatal_witness :
    (IRQ_COUNT ≤ 224)
    ∧ (Irq.register (initIrq (H := Unit)) 224 ()).state = initIrq
    ∧ (Irq.register (initIrq (H := Unit)) 224 ()).writes = []
    ∧ (Irq.register (initIrq (H := Unit)) 224 ()).panicked = true :=
  ⟨by decide,
    (register_out_of_range_fatal (initIrq (H := Unit)) 224 () (by decide)).2.1,
    (register_out_of_range_fatal (initIrq (H := Unit)) 224 () (by decide)).2.2.1,
    (register_out_of_range_fatal (initIrq (H := Unit)) 224 () (by decide)).2.2.2⟩

/-- C7: `trigger` with an id below 16 writes exactly one word to the SGI
control register, the broadcast-to-all-cores selector `0xFF8000` combined
with the id; `trigger` with any id at or above 16 panics and performs no
register write. -/
theorem trigger_broadcast_encoding (s : Irq H) (id : Nat) :
    (id < 16 →
      Irq.trigger s id =
        { state := s, writes := [HWWrite.sgir (0xFF8000 ||| id)], events := [],
          invoked := [], lookups := [], panicked := false })
    ∧ (16 ≤ id →
      Irq.trigger s id =
        { state := s, writes := [], events := [], invoked := [], lookups := [],
          panicked := true }) :=
  ⟨fun hlt => trigger_ok hlt, fun hge => trigger_oor hge⟩

/-- C7 witness: triggering SGI 5 (in range) and 16 (out of range). -/
theorem trigger_broadcast_encoding_witness :
    Irq.trigger (initIrq (H := Unit)) 5 =
      { state := initIrq, writes := [HWWrite.sgir (0xFF8000 ||| 5)], events := [],
        invoked := [], lookups := [], panicked := false }
    ∧ Irq.trigger (initIrq (H := Unit)) 16 =
      { state := initIrq, writes := [], events := [], invoked := [], lookups := [],
        panicked := true } :=
  ⟨(trigger_broadcast_encoding (initIrq (H := Unit)) 5).1 (by decide),
    (trigger_broadcast_encoding (initIrq (H := Unit)) 16).2 (by decide)⟩

set_option maxRecDepth 40000

/-- C8: the one-time initializer performs, in program order: all-ones writes
to every clear-enable word, the least-restrictive priority-mask write, a
uniform priority byte (0x7F, numerically below the 0xFF mask, hence accepted)
to every id, a level-trigger configuration write to every config word, and
the broadcast target mask only to target bytes of ids at or above 32 (every
such id, and no id below 32); and it constructs an empty registry. -/
theorem new_initialization_sequence :
    newWrites =
      ((List.range (IRQ_COUNT / 32)).map fun i => HWWrite.icenabler i 0xFFFFFFFF)
        ++ [HWWrite.pmr 0xFF]
        ++ ((List.range IRQ_COUNT).map fun i => HWWrite.ipriorityr i 0x7F)
        ++ ((List.range (IRQ_COUNT / 16)).map fun i => HWWrite.icfgr i 0x55555555)
        ++ (((List.range IRQ_COUNT).filter fun i => decide (32 ≤ i)).map
              fun i => HWWrite.itargetsr i 0xFF)
    ∧ (0x7F : Nat) < 0xFF
    ∧ (newWrites.all fun w =>
        match w with
        | HWWrite.itargetsr i _ => decide (32 ≤ i)
        | _ => true) = true
    ∧ ∀ (K : Type) (id : Nat), (Irq.new K).1.handlers id = none := by
  refine ⟨by decide, by decide, by decide, ?_⟩
  intro K id
  rfl

/-- C9: for every id accepted by `register`'s range assertion, the computed
enable-word index `id >> 5` is strictly below the length of the set-enable
register array, so the `unwrap` on the array lookup cannot fail and
`register` never panics under the precondition. -/
theorem register_enable_index_in_bounds (id : Nat) (hid : id < IRQ_COUNT) :
    id >>> 5 < ISENABLER_LEN
    ∧ (∀ (K : Type) (s : Irq K) (h : K), (Irq.register s id h).panicked = false) := by
  refine ⟨idx_lt_isenabler_len hid, ?_⟩
  intro K s h
  cases hv : s.handlers id with
  | some v => rw [register_existing hid hv h]
  | none => rw [register_fresh hid hv h]

/-- C9 witness: the largest valid id, 223, maps to word index 6 < 7. -/
theorem register_enable_index_in_bounds_witness :
    (223 < IRQ_COUNT) ∧ 223 >>> 5 < ISENABLER_LEN
    ∧ (Irq.register (initIrq (H := Unit)) 223 ()).panicked = false :=
  ⟨by decide, (register_enable_index_in_bounds 223 (by decide)).1,
    (register_enable_index_in_bounds 223 (by decide)).2 Unit initIrq ()⟩

/-- C10: the first registration for any valid id, SGIs and private-peripheral
ids included, performs the same single set-enable write, to word `id / 32`
with bit `id % 32`; for ids below 32 that word is word 0. No sub-range of
valid ids is exempted from the lazy hardware enable. -/
theorem register_uniform_across_id_classes (s : Irq H) (id : Nat) (h : H)
    (hid : id < IRQ_COUNT) (hfresh : s.handlers id = none) :
    (Irq.register s id h).writes = [HWWrite.isenabler (id / 32) (2 ^ (id % 32))]
    ∧ (id < 32 → (Irq.register s id h).writes = [HWWrite.isenabler 0 (2 ^ (id % 32))])
    ∧ (Irq.register s id h).panicked = false := by
  have e := register_fresh hid hfresh h
  have hw : (Irq.register s id h).writes = [HWWrite.isenabler (id / 32) (2 ^ (id % 32))] := by
    rw [e]
    simp [enable_write_eq]
  refine ⟨hw, ?_, by rw [e]⟩
  intro h32
  rw [hw, Nat.div_eq_of_lt h32]

/-- C10 witness: the first registration of SGI id 3 writes bit 3 of word 0. -/
theorem register_uniform_across_id_classes_witness :
    (3 < IRQ_COUNT) ∧ ((initIrq (H := Unit)).handlers 3 = none)
    ∧ (Irq.register (initIrq (H := Unit)) 3 ()).writes
        = [HWWrite.isenabler 0 (2 ^ (3 % 32))] :=
  ⟨by decide, rfl,
    (register_uniform_across_id_classes (initIrq (H := Unit)) 3 () (by decide) rfl).2.1
      (by decide)⟩

end Nether
